import Mathlib

/-
  Verification of the concurrent permission-check evaluator in
  internal/graph/check.go (Zanzibar-style relationship checks).

  The evaluator's data model and the external collaborators it consumes
  (declared in the repository but outside this file: the CheckRequest and
  CheckResult types of the graph package, the Dispatcher, the datastore
  query surface and the namespace manager) are modelled from the spec,
  as noted on each definition.  Everything else is a direct translation
  of check.go.

  Concurrency is made explicit: each reducer in check.go consumes the
  results of its subchecks in channel-arrival order, so the reducers are
  embedded as pure functions over the arrival-ordered list of results
  (for Difference, over the arrival-ordered interleaving of the base
  channel and the subtractor channel).  The context-cancellation branch
  of each select is outside the model.  Go panics are made explicit as
  an Except error.
-/

namespace Graph

/-- ObjectAndRelation triple from the v0 proto (namespace, object id, relation). -/
structure ObjectAndRelation where
  Namespace : String
  ObjectId : String
  Relation : String
  deriving DecidableEq, Repr

/-- onrEqual from check.go lines 24-27: structural equality of the three fields,
compared in the source's order. -/
def onrEqual (lhs rhs : ObjectAndRelation) : Bool :=
  lhs.ObjectId == rhs.ObjectId && lhs.Relation == rhs.Relation && lhs.Namespace == rhs.Namespace

/-- Modelled from the spec: the sentinel relation denoting a terminal subject
reference; declared in the tuple package, outside src/. -/
def Ellipsis : String := "..."

/-- The v0 proto User message; well-formed tuples carry an ONR userset, and
tpl.User.GetUserset reads it. -/
structure User where
  Userset : ObjectAndRelation
  deriving DecidableEq, Repr

/-- GetUserset accessor on the proto User message. -/
def User.GetUserset (u : User) : ObjectAndRelation := u.Userset

/-- RelationTuple from the v0 proto: an (object and relation, user) pair. -/
structure RelationTuple where
  ObjectAndRelation : ObjectAndRelation
  User : User
  deriving DecidableEq, Repr

/-- Modelled from the spec: the evaluator error taxonomy (section 7).  The
concrete error constructors (NewCheckFailureErr, NewRequestCanceledErr,
ErrAlwaysFail, the depth error of the dispatch package) are declared outside
src/; causes are abstracted as naturals. -/
inductive GErr where
  | checkFailure (cause : Nat)
  | namespaceErr (cause : Nat)
  | depthLimitExceeded
  | requestCanceled
  | invalidSchema
  deriving DecidableEq, Repr

/-- Modelled from the spec: CheckResult, declared in the graph package outside
src/ — (is_member, optional error). -/
structure CheckResult where
  IsMember : Bool
  Err : Option GErr
  deriving DecidableEq, Repr

/-- Modelled from the spec: CheckRequest, declared in the graph package outside
src/ — Start, Goal, revision handle, and the non-negative recursion budget
DepthRemaining, kept as an Int so the decrement at each dispatch site is exact. -/
structure CheckRequest where
  Start : ObjectAndRelation
  Goal : ObjectAndRelation
  AtRevision : Nat
  DepthRemaining : Int
  deriving DecidableEq, Repr

/-- Modelled from the spec: the error kinds of
NamespaceManager.CheckNamespaceAndRelation — "relation not found" is
distinguishable from a general lookup failure. -/
inductive NsErr where
  | ErrRelationNotFound
  | failure (cause : Nat)
  deriving DecidableEq, Repr

/-- Modelled from the spec: the namespace manager, a read-only lookup from
(namespace, relation) to an optional error. -/
abbrev Nsm := String → String → Option NsErr

/- ===================== Reducers (check.go lines 192-304) ===================== -/

/-- The consumption loop of All (lines 206-215): results in arrival order; a
result with an error or a non-member result is returned immediately and
unchanged; an exhausted loop yields the line-217 result. -/
def allLoop : List CheckResult → CheckResult
  | [] => ⟨true, none⟩
  | r :: rest => if r.Err.isSome || !r.IsMember then r else allLoop rest

/-- All (lines 193-218): empty input short-circuits to {false, nil} (line 195),
otherwise the arrival loop runs over all results. -/
def All (results : List CheckResult) : CheckResult :=
  if results.length = 0 then ⟨false, none⟩ else allLoop results

/-- The consumption loop of Any (lines 255-270) with its downstreamError
accumulator: the first {true, nil} result wins; an error replaces the
accumulator; an exhausted loop yields {false, downstreamError} (line 272). -/
def anyLoop (downstreamError : Option GErr) : List CheckResult → CheckResult
  | [] => ⟨false, downstreamError⟩
  | r :: rest =>
    if r.Err.isNone && r.IsMember then r
    else anyLoop (if r.Err.isSome then r.Err else downstreamError) rest

/-- Any (lines 242-273): empty input short-circuits to {false, nil} (line 244),
otherwise the arrival loop runs with an empty error accumulator. -/
def Any (results : List CheckResult) : CheckResult :=
  if results.length = 0 then ⟨false, none⟩ else anyLoop none results

/-- One arrival consumed by Difference: either the base child's result (from
baseChan) or a subtractor's result (from othersChan). -/
inductive Arrival where
  | base (r : CheckResult)
  | sub (r : CheckResult)
  deriving DecidableEq, Repr

/-- The consumption loop of Difference (lines 288-301): a base result with an
error or non-membership is returned as-is; a subtractor result with an error or
membership yields {false, sub.Err}; an exhausted loop yields {true, nil}
(line 303). -/
def diffLoop : List Arrival → CheckResult
  | [] => ⟨true, none⟩
  | Arrival.base b :: rest => if b.Err.isSome || !b.IsMember then b else diffLoop rest
  | Arrival.sub s :: rest => if s.Err.isSome || s.IsMember then ⟨false, s.Err⟩ else diffLoop rest

/-- Difference (lines 276-304) over the arrival-ordered interleaving of the
base channel and the subtractor channel; the source indexes requests[0], so it
is only invoked on a non-empty request list. -/
def Difference (arrivals : List Arrival) : CheckResult := diffLoop arrivals

/-- The guard under which one arrival makes Difference return before consuming
the remaining results (the two select cases at lines 291 and 295). -/
def diffShortCircuit : Arrival → Bool
  | Arrival.base b => b.Err.isSome || !b.IsMember
  | Arrival.sub s => s.Err.isSome || s.IsMember

/- ===================== Rewrite syntax (v0 proto) ===================== -/

/-- ComputedUserset_Object enum values from the v0 proto; the field is an
int32, so values other than the two declared selectors are representable. -/
def ComputedUserset_TUPLE_OBJECT : Int := 0

/-- The second declared selector of the ComputedUserset_Object enum. -/
def ComputedUserset_TUPLE_USERSET_OBJECT : Int := 1

/-- ComputedUserset from the v0 proto: an object selector and a relation. -/
structure ComputedUserset where
  Object : Int
  Relation : String
  deriving DecidableEq, Repr

/-- The tupleset part of a TupleToUserset: the relation whose tuples are
enumerated. -/
structure Tupleset where
  Relation : String
  deriving DecidableEq, Repr

/-- TupleToUserset from the v0 proto. -/
structure TupleToUserset where
  Tupleset : Tupleset
  ComputedUserset : ComputedUserset
  deriving DecidableEq, Repr

mutual

/-- UsersetRewrite from the v0 proto: a oneof over union, intersection and
exclusion, each carrying the children of its SetOperation; an unset or
unrecognized oneof is UnknownOp. -/
inductive UsersetRewrite where
  | Union (children : List SetOperationChild)
  | Intersection (children : List SetOperationChild)
  | Exclusion (children : List SetOperationChild)
  | UnknownOp

/-- SetOperation.Child from the v0 proto: a oneof over the four child kinds;
an unset or unrecognized oneof is UnknownChild. -/
inductive SetOperationChild where
  | XThis
  | ComputedUsersetChild (cu : ComputedUserset)
  | UsersetRewriteChild (usr : UsersetRewrite)
  | TupleToUsersetChild (ttu : TupleToUserset)
  | UnknownChild

end

/-- Relation from the v0 proto: name plus optional userset rewrite. -/
structure Relation where
  Name : String
  UsersetRewrite : Option UsersetRewrite

/- ===================== Lazy check functions ===================== -/

/-- Which reducer a set operation was translated to (the third argument of
checkSetOperation at lines 91, 93, 95). -/
inductive ReducerKind where
  | Any
  | All
  | Difference
  deriving DecidableEq, Repr

/-- The ReduceableCheckFunc values produced by check.go, as a syntax tree: the
four leaf producers of lines 220-239 plus AlwaysFail (declared outside src/),
the dispatch closure of lines 42-48, the deferred closures of checkDirect and
checkTupleToUserset, and the reducer application closure of lines 115-118. -/
inductive ReduceableCheckFunc where
  | AlwaysMember
  | NotMember
  | AlwaysFail
  | CheckError (e : GErr)
  | dispatch (req : CheckRequest)
  | checkDirectF (req : CheckRequest)
  | checkTupleToUsersetF (req : CheckRequest) (ttu : TupleToUserset)
  | setOperationF (reducer : ReducerKind) (requests : List ReduceableCheckFunc)

/-- Modelled from the spec: the single result sent by AlwaysFail, which is
declared outside src/ — an unrecognized operation is the fatal evaluator error
{false, InvalidSchema}. -/
def alwaysFailResult : CheckResult := ⟨false, some GErr.invalidSchema⟩

/-- The single result each leaf check function sends to its result channel
(lines 220-239 for CheckError, AlwaysMember and NotMember; alwaysFailResult
for AlwaysFail). -/
def sends : ReduceableCheckFunc → Option CheckResult
  | ReduceableCheckFunc.AlwaysMember => some ⟨true, none⟩
  | ReduceableCheckFunc.NotMember => some ⟨false, none⟩
  | ReduceableCheckFunc.AlwaysFail => some alwaysFailResult
  | ReduceableCheckFunc.CheckError e => some ⟨false, some e⟩
  | _ => none

/-- A Go runtime panic made explicit: the explicit panic call at line 125, or
the nil-pointer dereference at line 138 when start was never assigned. -/
inductive GoPanic where
  | explicitPanic (msg : String)
  | nilDereference
  deriving DecidableEq, Repr

/-- Modelled from the spec: the outer Dispatcher, declared outside src/.  A
required recursive dispatch whose request has exhausted its depth budget is
answered {false, DepthLimitExceeded}; otherwise the dispatcher routes the
request to an evaluator. -/
def dispatcherCheck (inner : CheckRequest → CheckResult) (req : CheckRequest) : CheckResult :=
  if req.DepthRemaining = 0 then ⟨false, some GErr.depthLimitExceeded⟩ else inner req

/-- The start-resolution prologue of checkComputedUserset (lines 122-135):
TUPLE_USERSET_OBJECT requires a tuple and panics without one (line 125);
TUPLE_OBJECT takes the tuple's object when a tuple is present, else the
request's Start; any other selector leaves start nil, so building targetOnr at
line 138 dereferences nil. -/
def resolveStart (req : CheckRequest) (cu : ComputedUserset) (tpl : Option RelationTuple) :
    Except GoPanic ObjectAndRelation :=
  if cu.Object = ComputedUserset_TUPLE_USERSET_OBJECT then
    match tpl with
    | none => Except.error (GoPanic.explicitPanic "computed userset for tupleset without tuple")
    | some t => Except.ok t.User.GetUserset
  else if cu.Object = ComputedUserset_TUPLE_OBJECT then
    match tpl with
    | some t => Except.ok t.ObjectAndRelation
    | none => Except.ok req.Start
  else
    Except.error GoPanic.nilDereference

/-- checkComputedUserset (lines 121-164): resolve the new start, build the
target ONR with the computed relation, short-circuit when it equals Goal,
consult the namespace manager (relation absent → NotMember, other failure →
CheckError), else dispatch with the depth budget decremented. -/
def checkComputedUserset (nsm : Nsm) (req : CheckRequest) (cu : ComputedUserset)
    (tpl : Option RelationTuple) : Except GoPanic ReduceableCheckFunc :=
  match resolveStart req cu tpl with
  | Except.error p => Except.error p
  | Except.ok start =>
    let targetOnr : ObjectAndRelation := ⟨start.Namespace, start.ObjectId, cu.Relation⟩
    if onrEqual req.Goal targetOnr then
      Except.ok ReduceableCheckFunc.AlwaysMember
    else
      match nsm start.Namespace cu.Relation with
      | some NsErr.ErrRelationNotFound => Except.ok ReduceableCheckFunc.NotMember
      | some (NsErr.failure c) => Except.ok (ReduceableCheckFunc.CheckError (GErr.namespaceErr c))
      | none => Except.ok (ReduceableCheckFunc.dispatch
          ⟨targetOnr, req.Goal, req.AtRevision, req.DepthRemaining - 1⟩)

mutual

/-- checkUsersetRewrite (lines 88-99): union, intersection and exclusion go to
their reducers through checkSetOperation; the default case is AlwaysFail. -/
def checkUsersetRewrite (nsm : Nsm) (req : CheckRequest) :
    UsersetRewrite → Except GoPanic ReduceableCheckFunc
  | UsersetRewrite.Union children =>
    Except.map (ReduceableCheckFunc.setOperationF ReducerKind.Any) (translateChildren nsm req children)
  | UsersetRewrite.Intersection children =>
    Except.map (ReduceableCheckFunc.setOperationF ReducerKind.All) (translateChildren nsm req children)
  | UsersetRewrite.Exclusion children =>
    Except.map (ReduceableCheckFunc.setOperationF ReducerKind.Difference) (translateChildren nsm req children)
  | UsersetRewrite.UnknownOp => Except.ok ReduceableCheckFunc.AlwaysFail

/-- One iteration of the child switch of checkSetOperation (lines 104-113).
The switch has no default case, so an unrecognized child appends nothing,
returned here as none. -/
def translateChild (nsm : Nsm) (req : CheckRequest) :
    SetOperationChild → Except GoPanic (Option ReduceableCheckFunc)
  | SetOperationChild.XThis => Except.ok (some (ReduceableCheckFunc.checkDirectF req))
  | SetOperationChild.ComputedUsersetChild cu =>
    Except.map some (checkComputedUserset nsm req cu none)
  | SetOperationChild.UsersetRewriteChild usr =>
    Except.map some (checkUsersetRewrite nsm req usr)
  | SetOperationChild.TupleToUsersetChild ttu =>
    Except.ok (some (ReduceableCheckFunc.checkTupleToUsersetF req ttu))
  | SetOperationChild.UnknownChild => Except.ok none

/-- The child loop of checkSetOperation (lines 102-114), building the requests
list in order; a panic raised while translating a child aborts the loop. -/
def translateChildren (nsm : Nsm) (req : CheckRequest) :
    List SetOperationChild → Except GoPanic (List ReduceableCheckFunc)
  | [] => Except.ok []
  | c :: rest =>
    match translateChild nsm req c with
    | Except.error p => Except.error p
    | Except.ok none => translateChildren nsm req rest
    | Except.ok (some f) => Except.map (fun t => f :: t) (translateChildren nsm req rest)

end

/-- check (lines 29-40): reflexive short-circuit on Goal = Start, a direct
check when the relation has no rewrite, otherwise the rewrite evaluation. -/
def check (nsm : Nsm) (req : CheckRequest) (relation : Relation) :
    Except GoPanic ReduceableCheckFunc :=
  if onrEqual req.Goal req.Start then
    Except.ok ReduceableCheckFunc.AlwaysMember
  else
    match relation.UsersetRewrite with
    | none => Except.ok (ReduceableCheckFunc.checkDirectF req)
    | some usr => checkUsersetRewrite nsm req usr

/- ===================== Direct check (lines 50-86) ===================== -/

/-- Modelled from the spec: the key of a datastore tuple query — the filter
triple and the pinned revision passed to QueryTuples. -/
structure TupleQuery where
  Namespace : String
  ObjectId : String
  Relation : String
  AtRevision : Nat
  deriving DecidableEq, Repr

/-- Modelled from the spec: the observable outcome of one datastore query —
Execute may fail (line 57), otherwise the iterator yields a list of tuples and
then reports an optional iteration error (line 80). -/
inductive QueryResult where
  | execErr (cause : Nat)
  | ok (tuples : List RelationTuple) (iterErr : Option Nat)
  deriving DecidableEq, Repr

/-- Modelled from the spec: the datastore as a read-only, revision-scoped
query surface. -/
abbrev DS := TupleQuery → QueryResult

/-- Outcome of the tuple loop of checkDirect: a goal hit sent {true, nil}
before consuming the rest, or the accumulated requests to dispatch. -/
inductive DirectStep where
  | found
  | dispatches (reqs : List CheckRequest)
  deriving DecidableEq, Repr

/-- The tuple loop of checkDirect (lines 64-79): a tuple whose userset equals
Goal short-circuits; a non-ellipsis userset appends a dispatch with Start set
to the userset, Goal preserved and the depth budget decremented; an ellipsis
userset is skipped. -/
def walkTuples (req : CheckRequest) (acc : List CheckRequest) :
    List RelationTuple → DirectStep
  | [] => DirectStep.dispatches acc
  | tpl :: rest =>
    if onrEqual tpl.User.GetUserset req.Goal then DirectStep.found
    else if tpl.User.GetUserset.Relation ≠ Ellipsis then
      walkTuples req
        (acc ++ [⟨tpl.User.GetUserset, req.Goal, req.AtRevision, req.DepthRemaining - 1⟩]) rest
    else walkTuples req acc rest

/-- What the checkDirect closure sends: either a concrete result, or the
union (Any) of the dispatched recursive checks of line 84. -/
inductive DirectResult where
  | sent (r : CheckResult)
  | anyOf (reqs : List CheckRequest)
  deriving DecidableEq, Repr

/-- The body of the checkDirect closure (lines 51-85) on the outcome of its
query: an Execute error sends {false, CheckFailure}; then the tuple loop; then
the iterator error test of line 80; else Any over the dispatches. -/
def checkDirectOn (req : CheckRequest) (q : QueryResult) : DirectResult :=
  match q with
  | QueryResult.execErr c => DirectResult.sent ⟨false, some (GErr.checkFailure c)⟩
  | QueryResult.ok tuples iterErr =>
    match walkTuples req [] tuples with
    | DirectStep.found => DirectResult.sent ⟨true, none⟩
    | DirectStep.dispatches reqs =>
      match iterErr with
      | some c => DirectResult.sent ⟨false, some (GErr.checkFailure c)⟩
      | none => DirectResult.anyOf reqs

/-- checkDirect (lines 50-86): query the datastore for the tuples of
(Start.Namespace, Start.ObjectId, Start.Relation) at AtRevision and run the
closure body on the outcome. -/
def checkDirect (ds : DS) (req : CheckRequest) : DirectResult :=
  checkDirectOn req (ds ⟨req.Start.Namespace, req.Start.ObjectId, req.Start.Relation, req.AtRevision⟩)

/-- The final result of a direct check once each dispatched request has been
answered: line 84 reduces the dispatch results under Any (arrival order
modelled as list order). -/
def DirectResult.reduce (dr : DirectResult) (disp : CheckRequest → CheckResult) : CheckResult :=
  match dr with
  | DirectResult.sent r => r
  | DirectResult.anyOf reqs => Any (reqs.map disp)

/- ===================== Helper lemmas ===================== -/

/-- The last element of a cons is the last of the tail when the tail is
non-empty, else the head. -/
theorem getLast_cons_or {α : Type} (a : α) (l : List α) :
    (a :: l).getLast? = Option.or l.getLast? (some a) := by
  induction l generalizing a with
  | nil => rfl
  | cons b l ih =>
    rw [List.getLast?_cons_cons, ih b]
    cases l.getLast? <;> rfl

/-- Or-ing with an unconditionally present right operand absorbs a further
fallback. -/
theorem or_some_absorb {α : Type} (x : Option α) (a : α) (d : Option α) :
    Option.or (Option.or x (some a)) d = Option.or x (some a) := by
  cases x <;> rfl

/-- When no result in the arrival list is a memberful success, the Any loop
falls through to {false, e} with e the last observed error (or the incoming
accumulator when none is observed). -/
theorem anyLoop_no_hit (results : List CheckResult) :
    ∀ d : Option GErr, (∀ r ∈ results, ¬ (r.Err = none ∧ r.IsMember = true)) →
      anyLoop d results = ⟨false, Option.or (results.filterMap CheckResult.Err).getLast? d⟩ := by
  induction results with
  | nil => intro d _; rfl
  | cons r rest ih =>
    intro d h
    have hr := h r (List.mem_cons_self r rest)
    have hrest : ∀ x ∈ rest, ¬ (x.Err = none ∧ x.IsMember = true) :=
      fun x hx => h x (List.mem_cons_of_mem r hx)
    cases hE : r.Err with
    | some e =>
      rw [anyLoop, hE]
      simp only [Option.isNone_some, Bool.false_and, if_false, Option.isSome_some, if_true]
      rw [ih (some e) hrest, List.filterMap_cons, hE]
      simp only [getLast_cons_or, or_some_absorb]
      simp
    | none =>
      have hM : r.IsMember = false := by
        cases hm : r.IsMember
        · rfl
        · exact absurd ⟨hE, hm⟩ hr
      rw [anyLoop, hE, hM]
      simp only [Option.isNone_none, Bool.true_and, if_false, Option.isSome_none, if_false,
        Bool.false_eq_true]
      rw [ih d hrest, List.filterMap_cons, hE]

/-- The first memberful, error-free arrival is returned by the Any loop
unchanged, whatever the accumulator holds. -/
theorem anyLoop_first_hit (pre : List CheckResult) :
    ∀ d : Option GErr, ∀ r rest, (∀ x ∈ pre, ¬ (x.Err = none ∧ x.IsMember = true)) →
      r.Err = none → r.IsMember = true → anyLoop d (pre ++ r :: rest) = r := by
  induction pre with
  | nil =>
    intro d r rest _ hE hM
    rw [List.nil_append, anyLoop, hE, hM]
    simp
  | cons x pre ih =>
    intro d r rest h hE hM
    have hx := h x (List.mem_cons_self x pre)
    have hpre : ∀ y ∈ pre, ¬ (y.Err = none ∧ y.IsMember = true) :=
      fun y hy => h y (List.mem_cons_of_mem x hy)
    have hguard : (x.Err.isNone && x.IsMember) = false := by
      cases hxe : x.Err with
      | some e => simp [hxe]
      | none =>
        cases hxm : x.IsMember
        · simp [hxm]
        · exact absurd ⟨hxe, hxm⟩ hx
    rw [List.cons_append, anyLoop]
    rw [if_neg (by rw [hguard]; exact Bool.false_ne_true)]
    exact ih _ r rest hpre hE hM

/-- An arrival with an error or without membership stops the All loop at once,
returned unchanged, provided everything before it passed. -/
theorem allLoop_first_fail (pre : List CheckResult) :
    ∀ r rest, (∀ x ∈ pre, x.Err = none ∧ x.IsMember = true) →
      (r.Err ≠ none ∨ r.IsMember = false) → allLoop (pre ++ r :: rest) = r := by
  induction pre with
  | nil =>
    intro r rest _ hr
    rw [List.nil_append, allLoop]
    rcases hr with hr | hr
    · rw [if_pos]
      cases hE : r.Err
      · exact absurd hE hr
      · simp [hE]
    · rw [if_pos]
      simp [hr]
  | cons x pre ih =>
    intro r rest h hr
    obtain ⟨hxe, hxm⟩ := h x (List.mem_cons_self x pre)
    rw [List.cons_append, allLoop, if_neg (by simp [hxe, hxm])]
    exact ih r rest (fun y hy => h y (List.mem_cons_of_mem x hy)) hr

/-- When every arrival passes, the All loop falls through to {true, nil}. -/
theorem allLoop_all_pass (results : List CheckResult)
    (h : ∀ r ∈ results, r.Err = none ∧ r.IsMember = true) : allLoop results = ⟨true, none⟩ := by
  induction results with
  | nil => rfl
  | cons r rest ih =>
    obtain ⟨hE, hM⟩ := h r (List.mem_cons_self r rest)
    rw [allLoop, if_neg (by simp [hE, hM])]
    exact ih (fun y hy => h y (List.mem_cons_of_mem r hy))

/-- When no arrival meets a short-circuit guard, the Difference loop falls
through to {true, nil}. -/
theorem diffLoop_all_pass (arrivals : List Arrival)
    (h : ∀ a ∈ arrivals, diffShortCircuit a = false) : diffLoop arrivals = ⟨true, none⟩ := by
  induction arrivals with
  | nil => rfl
  | cons a rest ih =>
    have ha := h a (List.mem_cons_self a rest)
    have hrest := fun y hy => h y (List.mem_cons_of_mem a hy)
    cases a with
    | base b =>
      rw [diffLoop, if_neg (by simp only [diffShortCircuit] at ha; rw [ha]; exact Bool.false_ne_true)]
      exact ih hrest
    | sub s =>
      rw [diffLoop, if_neg (by simp only [diffShortCircuit] at ha; rw [ha]; exact Bool.false_ne_true)]
      exact ih hrest

/-- The Difference loop never returns {true, nil} out of a short-circuit: if it
does return {true, nil}, no arrival met a guard. -/
theorem diffLoop_true_no_stop (arrivals : List Arrival)
    (h : diffLoop arrivals = ⟨true, none⟩) : ∀ a ∈ arrivals, diffShortCircuit a = false := by
  induction arrivals with
  | nil => intro a ha; exact absurd ha (List.not_mem_nil a)
  | cons a rest ih =>
    intro y hy
    cases a with
    | base b =>
      rw [diffLoop] at h
      by_cases hg : (b.Err.isSome || !b.IsMember) = true
      · rw [if_pos hg] at h
        subst h
        simp at hg
      · rw [if_neg hg] at h
        rcases List.mem_cons.mp hy with hy | hy
        · subst hy
          simp only [diffShortCircuit]
          exact Bool.not_eq_true _ ▸ (by simpa using hg)
        · exact ih h y hy
    | sub s =>
      rw [diffLoop] at h
      by_cases hg : (s.Err.isSome || s.IsMember) = true
      · rw [if_pos hg] at h
        exact absurd (congrArg CheckResult.IsMember h) (by simp)
      · rw [if_neg hg] at h
        rcases List.mem_cons.mp hy with hy | hy
        · subst hy
          simp only [diffShortCircuit]
          exact Bool.not_eq_true _ ▸ (by simpa using hg)
        · exact ih h y hy

/-- A triggering base arrival stops the Difference loop with the base result
itself, provided everything before it passed. -/
theorem diffLoop_stop_base (pre : List Arrival) :
    ∀ b rest, (∀ a ∈ pre, diffShortCircuit a = false) →
      (b.Err.isSome || !b.IsMember) = true →
      diffLoop (pre ++ Arrival.base b :: rest) = b := by
  induction pre with
  | nil =>
    intro b rest _ hb
    rw [List.nil_append, diffLoop, if_pos hb]
  | cons a pre ih =>
    intro b rest h hb
    have ha := h a (List.mem_cons_self a pre)
    have hpre := fun y hy => h y (List.mem_cons_of_mem a hy)
    cases a with
    | base x =>
      rw [List.cons_append, diffLoop,
        if_neg (by simp only [diffShortCircuit] at ha; rw [ha]; exact Bool.false_ne_true)]
      exact ih b rest hpre hb
    | sub x =>
      rw [List.cons_append, diffLoop,
        if_neg (by simp only [diffShortCircuit] at ha; rw [ha]; exact Bool.false_ne_true)]
      exact ih b rest hpre hb

/-- A triggering subtractor arrival stops the Difference loop with
{false, sub.Err}, provided everything before it passed. -/
theorem diffLoop_stop_sub (pre : List Arrival) :
    ∀ s rest, (∀ a ∈ pre, diffShortCircuit a = false) →
      (s.Err.isSome || s.IsMember) = true →
      diffLoop (pre ++ Arrival.sub s :: rest) = ⟨false, s.Err⟩ := by
  induction pre with
  | nil =>
    intro s rest _ hs
    rw [List.nil_append, diffLoop, if_pos hs]
  | cons a pre ih =>
    intro s rest h hs
    have ha := h a (List.mem_cons_self a pre)
    have hpre := fun y hy => h y (List.mem_cons_of_mem a hy)
    cases a with
    | base x =>
      rw [List.cons_append, diffLoop,
        if_neg (by simp only [diffShortCircuit] at ha; rw [ha]; exact Bool.false_ne_true)]
      exact ih s rest hpre hs
    | sub x =>
      rw [List.cons_append, diffLoop,
        if_neg (by simp only [diffShortCircuit] at ha; rw [ha]; exact Bool.false_ne_true)]
      exact ih s rest hpre hs

/- ===================== Claim theorems: reducers ===================== -/

/-- Claim C2: the Any reducer returns {false, nil} on the empty list; otherwise
the first {true, nil} arrival is returned immediately; arrivals carrying errors
do not terminate the reducer; and when no subcheck yields {true, nil}, Any
returns {false, e} with e the last observed error (nil when no subcheck
errored). -/
theorem C2_any_reducer :
    Any ([] : List CheckResult) = ⟨false, none⟩
  ∧ (∀ (pre : List CheckResult) (r : CheckResult) (rest : List CheckResult),
      (∀ x ∈ pre, ¬ (x.Err = none ∧ x.IsMember = true)) →
      r.Err = none → r.IsMember = true → Any (pre ++ r :: rest) = r)
  ∧ (∀ results : List CheckResult,
      (∀ r ∈ results, ¬ (r.Err = none ∧ r.IsMember = true)) →
      Any results = ⟨false, (results.filterMap CheckResult.Err).getLast?⟩) := by
  refine ⟨rfl, ?_, ?_⟩
  · intro pre r rest hpre hE hM
    rw [Any, if_neg (by simp)]
    exact anyLoop_first_hit pre none r rest hpre hE hM
  · intro results h
    cases results with
    | nil => rfl
    | cons r rest =>
      rw [Any, if_neg (by simp)]
      rw [anyLoop_no_hit _ none h]
      cases hx : ((r :: rest).filterMap CheckResult.Err).getLast? <;> rfl

/-- Closed witness for C2: a first erroring subcheck does not stop a later
success, and an all-error arrival list surfaces the last error. -/
theorem C2_any_reducer_witness :
    Any [⟨false, some (GErr.checkFailure 3)⟩, ⟨true, none⟩] = ⟨true, none⟩
  ∧ Any [⟨false, some (GErr.checkFailure 3)⟩, ⟨false, some (GErr.namespaceErr 5)⟩]
      = ⟨false, some (GErr.namespaceErr 5)⟩ := by
  constructor
  · exact C2_any_reducer.2.1 [⟨false, some (GErr.checkFailure 3)⟩] ⟨true, none⟩ []
      (by simp) rfl rfl
  · exact C2_any_reducer.2.2
      [⟨false, some (GErr.checkFailure 3)⟩, ⟨false, some (GErr.namespaceErr 5)⟩] (by simp)

/-- Claim C4: the All reducer returns {false, nil} on the empty list; an
arriving result that is non-member or carries an error is returned immediately
and unchanged; and when all N results are error-free member results, All
returns {true, nil}. -/
theorem C4_all_reducer :
    All ([] : List CheckResult) = ⟨false, none⟩
  ∧ (∀ (pre : List CheckResult) (r : CheckResult) (rest : List CheckResult),
      (∀ x ∈ pre, x.Err = none ∧ x.IsMember = true) →
      (r.Err ≠ none ∨ r.IsMember = false) → All (pre ++ r :: rest) = r)
  ∧ (∀ results : List CheckResult, results ≠ [] →
      (∀ r ∈ results, r.Err = none ∧ r.IsMember = true) → All results = ⟨true, none⟩) := by
  refine ⟨rfl, ?_, ?_⟩
  · intro pre r rest hpre hr
    rw [All, if_neg (by simp)]
    exact allLoop_first_fail pre r rest hpre hr
  · intro results hne h
    rw [All, if_neg (by simpa [List.length_eq_zero] using hne)]
    exact allLoop_all_pass results h

/-- Closed witness for C4: a non-member arrival is returned unchanged, and an
all-member list yields {true, nil}. -/
theorem C4_all_reducer_witness :
    All [⟨true, none⟩, ⟨false, none⟩] = ⟨false, none⟩
  ∧ All [⟨true, none⟩, ⟨true, none⟩] = ⟨true, none⟩ := by
  constructor
  · exact C4_all_reducer.2.1 [⟨true, none⟩] ⟨false, none⟩ [] (by simp) (Or.inr rfl)
  · exact C4_all_reducer.2.2 [⟨true, none⟩, ⟨true, none⟩] (by simp) (by simp)

/-- Claim C3: on a non-empty request list, Difference returns the base child's
result as soon as that result is non-member or carries an error; returns
{false, subtractor.Err} as soon as any subtractor result is a member or carries
an error — even when the base result has not yet arrived, since the preceding
arrivals may all be subtractors; and returns {true, nil} exactly when all N
results are consumed without triggering either short-circuit. -/
theorem C3_difference_reducer :
    (∀ (pre : List Arrival) (b : CheckResult) (rest : List Arrival),
      (∀ a ∈ pre, diffShortCircuit a = false) → (b.Err ≠ none ∨ b.IsMember = false) →
      Difference (pre ++ Arrival.base b :: rest) = b)
  ∧ (∀ (pre : List Arrival) (s : CheckResult) (rest : List Arrival),
      (∀ a ∈ pre, diffShortCircuit a = false) → (s.Err ≠ none ∨ s.IsMember = true) →
      Difference (pre ++ Arrival.sub s :: rest) = ⟨false, s.Err⟩)
  ∧ (∀ arrivals : List Arrival, arrivals ≠ [] →
      (Difference arrivals = ⟨true, none⟩ ↔ ∀ a ∈ arrivals, diffShortCircuit a = false)) := by
  refine ⟨?_, ?_, ?_⟩
  · intro pre b rest hpre hb
    refine diffLoop_stop_base pre b rest hpre ?_
    rcases hb with hb | hb
    · cases hE : b.Err
      · exact absurd hE hb
      · simp [hE]
    · simp [hb]
  · intro pre s rest hpre hs
    refine diffLoop_stop_sub pre s rest hpre ?_
    rcases hs with hs | hs
    · cases hE : s.Err
      · exact absurd hE hs
      · simp [hE]
    · simp [hs]
  · intro arrivals _
    exact ⟨diffLoop_true_no_stop arrivals, diffLoop_all_pass arrivals⟩

/-- Closed witness for C3: a member subtractor arriving before the base stops
the reducer with {false, nil}; a non-member base is returned unchanged; and a
run with base true and subtractor false reduces to {true, nil}. -/
theorem C3_difference_reducer_witness :
    Difference [Arrival.sub ⟨true, none⟩, Arrival.base ⟨true, none⟩] = ⟨false, none⟩
  ∧ Difference [Arrival.base ⟨false, none⟩] = ⟨false, none⟩
  ∧ (Difference [Arrival.base ⟨true, none⟩, Arrival.sub ⟨false, none⟩] = ⟨true, none⟩ ↔
      ∀ a ∈ [Arrival.base (⟨true, none⟩ : CheckResult), Arrival.sub ⟨false, none⟩],
        diffShortCircuit a = false) := by
  refine ⟨?_, ?_, ?_⟩
  · exact C3_difference_reducer.2.1 [] ⟨true, none⟩ [Arrival.base ⟨true, none⟩]
      (by simp) (Or.inr rfl)
  · exact C3_difference_reducer.1 [] ⟨false, none⟩ [] (by simp) (Or.inr rfl)
  · exact C3_difference_reducer.2.2
      [Arrival.base ⟨true, none⟩, Arrival.sub ⟨false, none⟩] (by simp)

/-- Claim C9: identity laws of the reducers: Any([x]) ≡ x for a subcheck result
x (which, per the CheckResult invariant of the spec, is non-member whenever it
carries an error); All([x]) ≡ x; Difference([base]) ≡ base; and
Any([]) = All([]) = {false, nil}. -/
theorem C9_reducer_identities :
    (∀ x : CheckResult, (x.Err ≠ none → x.IsMember = false) → Any [x] = x)
  ∧ (∀ x : CheckResult, All [x] = x)
  ∧ (∀ x : CheckResult, Difference [Arrival.base x] = x)
  ∧ Any ([] : List CheckResult) = ⟨false, none⟩
  ∧ All ([] : List CheckResult) = ⟨false, none⟩ := by
  refine ⟨?_, ?_, ?_, rfl, rfl⟩
  · rintro ⟨m, err⟩ hwf
    cases err with
    | none => cases m <;> simp [Any, anyLoop]
    | some e =>
      have hm : m = false := hwf (by simp)
      subst hm
      simp [Any, anyLoop]
  · rintro ⟨m, err⟩
    cases err <;> cases m <;> simp [All, allLoop]
  · rintro ⟨m, err⟩
    cases err <;> cases m <;> simp [Difference, diffLoop]

/-- Closed witness for C9: the Any identity applied to a well-formed erroring
subcheck result. -/
theorem C9_reducer_identities_witness :
    Any [(⟨false, some GErr.requestCanceled⟩ : CheckResult)]
      = ⟨false, some GErr.requestCanceled⟩ := by
  exact C9_reducer_identities.1 ⟨false, some GErr.requestCanceled⟩ (fun _ => rfl)

/- ===================== Helper lemmas: the direct-check loop ===================== -/

/-- When no tuple's userset equals Goal, the tuple loop dispatches exactly the
non-ellipsis usersets, each with the depth budget decremented. -/
theorem walkTuples_no_hit (req : CheckRequest) (tuples : List RelationTuple) :
    ∀ acc : List CheckRequest, (∀ t ∈ tuples, onrEqual t.User.GetUserset req.Goal = false) →
      walkTuples req acc tuples = DirectStep.dispatches (acc ++ tuples.filterMap (fun t =>
        if t.User.GetUserset.Relation ≠ Ellipsis then
          some ⟨t.User.GetUserset, req.Goal, req.AtRevision, req.DepthRemaining - 1⟩
        else none)) := by
  induction tuples with
  | nil => intro acc _; simp [walkTuples]
  | cons t rest ih =>
    intro acc h
    have ht := h t (List.mem_cons_self t rest)
    have hrest := fun y hy => h y (List.mem_cons_of_mem t hy)
    rw [walkTuples, if_neg (by rw [ht]; exact Bool.false_ne_true)]
    by_cases hrel : t.User.GetUserset.Relation ≠ Ellipsis
    · rw [if_pos hrel, ih _ hrest, List.filterMap_cons]
      simp [hrel]
    · rw [if_neg hrel, ih _ hrest, List.filterMap_cons]
      simp [hrel]

/-- A tuple whose userset equals Goal makes the tuple loop return found,
whatever comes after it, provided no earlier tuple hit. -/
theorem walkTuples_hit (req : CheckRequest) (pre : List RelationTuple) :
    ∀ (acc : List CheckRequest) (tpl : RelationTuple) (rest : List RelationTuple),
      (∀ t ∈ pre, onrEqual t.User.GetUserset req.Goal = false) →
      onrEqual tpl.User.GetUserset req.Goal = true →
      walkTuples req acc (pre ++ tpl :: rest) = DirectStep.found := by
  induction pre with
  | nil =>
    intro acc tpl rest _ h
    rw [List.nil_append, walkTuples, if_pos h]
  | cons t pre ih =>
    intro acc tpl rest h hhit
    have ht := h t (List.mem_cons_self t pre)
    have hpre := fun y hy => h y (List.mem_cons_of_mem t hy)
    rw [List.cons_append, walkTuples, if_neg (by rw [ht]; exact Bool.false_ne_true)]
    by_cases hrel : t.User.GetUserset.Relation ≠ Ellipsis
    · rw [if_pos hrel]; exact ih _ tpl rest hpre hhit
    · rw [if_neg hrel]; exact ih _ tpl rest hpre hhit

/-- Every request the tuple loop accumulates carries the decremented depth
budget, as long as the incoming accumulator does. -/
theorem walkTuples_depth (req : CheckRequest) (tuples : List RelationTuple) :
    ∀ (acc reqs : List CheckRequest), (∀ r ∈ acc, r.DepthRemaining = req.DepthRemaining - 1) →
      walkTuples req acc tuples = DirectStep.dispatches reqs →
      ∀ r ∈ reqs, r.DepthRemaining = req.DepthRemaining - 1 := by
  induction tuples with
  | nil =>
    intro acc reqs hacc heq
    rw [walkTuples] at heq
    injection heq with heq
    subst heq
    exact hacc
  | cons t rest ih =>
    intro acc reqs hacc heq
    rw [walkTuples] at heq
    by_cases hhit : onrEqual t.User.GetUserset req.Goal = true
    · rw [if_pos hhit] at heq
      exact absurd heq (by simp)
    · rw [if_neg hhit] at heq
      by_cases hrel : t.User.GetUserset.Relation ≠ Ellipsis
      · rw [if_pos hrel] at heq
        refine ih _ reqs ?_ heq
        intro r hr
        rcases List.mem_append.mp hr with hr | hr
        · exact hacc r hr
        · rcases List.mem_singleton.mp hr with rfl
          rfl
      · rw [if_neg hrel] at heq
        exact ih _ reqs hacc heq

/-- A panic in the start resolution propagates out of checkComputedUserset. -/
theorem checkComputedUserset_error_step (nsm : Nsm) (req : CheckRequest)
    (cu : ComputedUserset) (tpl : Option RelationTuple) (p : GoPanic)
    (hres : resolveStart req cu tpl = Except.error p) :
    checkComputedUserset nsm req cu tpl = Except.error p := by
  simp only [checkComputedUserset]
  rw [hres]

/-- On a resolved start s, checkComputedUserset reduces to the goal test and
the namespace lookup over the target ONR built from s. -/
theorem checkComputedUserset_ok_step (nsm : Nsm) (req : CheckRequest)
    (cu : ComputedUserset) (tpl : Option RelationTuple) (s : ObjectAndRelation)
    (hres : resolveStart req cu tpl = Except.ok s) :
    checkComputedUserset nsm req cu tpl =
      (if onrEqual req.Goal ⟨s.Namespace, s.ObjectId, cu.Relation⟩ then
        Except.ok ReduceableCheckFunc.AlwaysMember
      else
        match nsm s.Namespace cu.Relation with
        | some NsErr.ErrRelationNotFound => Except.ok ReduceableCheckFunc.NotMember
        | some (NsErr.failure c) => Except.ok (ReduceableCheckFunc.CheckError (GErr.namespaceErr c))
        | none => Except.ok (ReduceableCheckFunc.dispatch
            ⟨⟨s.Namespace, s.ObjectId, cu.Relation⟩, req.Goal, req.AtRevision,
              req.DepthRemaining - 1⟩)) := by
  simp only [checkComputedUserset]
  rw [hres]

/-- Whenever the start resolution succeeds, checkComputedUserset returns a
check function rather than panicking. -/
theorem checkComputedUserset_ok_of_resolve (nsm : Nsm) (req : CheckRequest)
    (cu : ComputedUserset) (tpl : Option RelationTuple) (s : ObjectAndRelation)
    (hres : resolveStart req cu tpl = Except.ok s) :
    ∃ f, checkComputedUserset nsm req cu tpl = Except.ok f := by
  rw [checkComputedUserset_ok_step nsm req cu tpl s hres]
  split
  · exact ⟨_, rfl⟩
  · split <;> exact ⟨_, rfl⟩

/- ===================== Claim theorems: check functions ===================== -/

/-- Claim C6: checkDirect queries the tuples of (Start.Namespace,
Start.ObjectId, Start.Relation) at AtRevision; a tuple whose userset equals
Goal emits {true, nil} without consuming the remaining tuples or the iterator
error; each tuple whose userset relation is not the ellipsis enqueues a
recursive dispatch with Start set to that userset, Goal preserved and depth
decremented, while ellipsis usersets not equal to Goal contribute nothing; an
iteration error yields {false, CheckFailure}; the enqueued dispatches are
combined under Any, so with no enqueued checks the result is {false, nil}. -/
theorem C6_check_direct :
    (∀ (ds : DS) (req : CheckRequest), checkDirect ds req
        = checkDirectOn req (ds ⟨req.Start.Namespace, req.Start.ObjectId,
            req.Start.Relation, req.AtRevision⟩))
  ∧ (∀ (req : CheckRequest) (c : Nat), checkDirectOn req (QueryResult.execErr c)
        = DirectResult.sent ⟨false, some (GErr.checkFailure c)⟩)
  ∧ (∀ (req : CheckRequest) (pre : List RelationTuple) (tpl : RelationTuple)
        (rest : List RelationTuple) (ierr : Option Nat),
      (∀ t ∈ pre, onrEqual t.User.GetUserset req.Goal = false) →
      onrEqual tpl.User.GetUserset req.Goal = true →
      checkDirectOn req (QueryResult.ok (pre ++ tpl :: rest) ierr)
        = DirectResult.sent ⟨true, none⟩)
  ∧ (∀ (req : CheckRequest) (tuples : List RelationTuple) (c : Nat),
      (∀ t ∈ tuples, onrEqual t.User.GetUserset req.Goal = false) →
      checkDirectOn req (QueryResult.ok tuples (some c))
        = DirectResult.sent ⟨false, some (GErr.checkFailure c)⟩)
  ∧ (∀ (req : CheckRequest) (tuples : List RelationTuple),
      (∀ t ∈ tuples, onrEqual t.User.GetUserset req.Goal = false) →
      checkDirectOn req (QueryResult.ok tuples none)
        = DirectResult.anyOf (tuples.filterMap (fun t =>
            if t.User.GetUserset.Relation ≠ Ellipsis then
              some ⟨t.User.GetUserset, req.Goal, req.AtRevision, req.DepthRemaining - 1⟩
            else none)))
  ∧ (∀ (req : CheckRequest) (disp : CheckRequest → CheckResult),
      DirectResult.reduce (checkDirectOn req (QueryResult.ok [] none)) disp = ⟨false, none⟩) := by
  refine ⟨fun _ _ => rfl, fun _ _ => rfl, ?_, ?_, ?_, fun _ _ => rfl⟩
  · intro req pre tpl rest ierr hpre hhit
    simp only [checkDirectOn]
    rw [walkTuples_hit req pre [] tpl rest hpre hhit]
  · intro req tuples c h
    simp only [checkDirectOn]
    rw [walkTuples_no_hit req tuples [] h]
  · intro req tuples h
    simp only [checkDirectOn]
    rw [walkTuples_no_hit req tuples [] h]
    rfl

/-- Closed witness for C6: a tuple holding the goal short-circuits to
{true, nil}; a tuple referring to another userset is enqueued as a dispatch
with depth decremented. -/
theorem C6_check_direct_witness :
    checkDirectOn ⟨⟨"document", "doc1", "viewer"⟩, ⟨"user", "alice", Ellipsis⟩, 0, 5⟩
        (QueryResult.ok [⟨⟨"document", "doc1", "viewer"⟩, ⟨⟨"user", "alice", Ellipsis⟩⟩⟩] none)
      = DirectResult.sent ⟨true, none⟩
  ∧ checkDirectOn ⟨⟨"document", "doc1", "viewer"⟩, ⟨"user", "alice", Ellipsis⟩, 0, 5⟩
        (QueryResult.ok [⟨⟨"document", "doc1", "viewer"⟩, ⟨⟨"group", "g1", "member"⟩⟩⟩] none)
      = DirectResult.anyOf [⟨⟨"group", "g1", "member"⟩, ⟨"user", "alice", Ellipsis⟩, 0, 4⟩] := by
  constructor
  · exact C6_check_direct.2.2.1 ⟨⟨"document", "doc1", "viewer"⟩, ⟨"user", "alice", Ellipsis⟩, 0, 5⟩
      [] ⟨⟨"document", "doc1", "viewer"⟩, ⟨⟨"user", "alice", Ellipsis⟩⟩⟩ [] none
      (by simp) (by decide)
  · exact (C6_check_direct.2.2.2.2.1
      ⟨⟨"document", "doc1", "viewer"⟩, ⟨"user", "alice", Ellipsis⟩, 0, 5⟩
      [⟨⟨"document", "doc1", "viewer"⟩, ⟨⟨"group", "g1", "member"⟩⟩⟩] (by decide)).trans (by decide)

/-- Claim C1: each dispatched recursive check carries DepthRemaining
decremented by exactly one — in the direct check's enqueued dispatches and in
checkComputedUserset's dispatch — and a required recursive dispatch whose
budget has reached zero is answered {false, DepthLimitExceeded} by the
dispatcher. -/
theorem C1_depth :
    (∀ (req : CheckRequest) (q : QueryResult) (reqs : List CheckRequest),
        checkDirectOn req q = DirectResult.anyOf reqs →
        ∀ r ∈ reqs, r.DepthRemaining = req.DepthRemaining - 1)
  ∧ (∀ (nsm : Nsm) (req : CheckRequest) (cu : ComputedUserset) (tpl : Option RelationTuple)
        (dreq : CheckRequest),
        checkComputedUserset nsm req cu tpl = Except.ok (ReduceableCheckFunc.dispatch dreq) →
        dreq.DepthRemaining = req.DepthRemaining - 1)
  ∧ (∀ (inner : CheckRequest → CheckResult) (req : CheckRequest), req.DepthRemaining = 0 →
        dispatcherCheck inner req = ⟨false, some GErr.depthLimitExceeded⟩) := by
  refine ⟨?_, ?_, ?_⟩
  · intro req q reqs heq
    cases q with
    | execErr c => simp [checkDirectOn] at heq
    | ok tuples iterErr =>
      simp only [checkDirectOn] at heq
      cases hw : walkTuples req [] tuples with
      | found =>
        rw [hw] at heq
        simp at heq
      | dispatches reqs2 =>
        rw [hw] at heq
        cases iterErr with
        | some c => simp at heq
        | none =>
          simp only [DirectResult.anyOf.injEq] at heq
          subst heq
          exact walkTuples_depth req tuples [] reqs2
            (fun r hr => absurd hr (List.not_mem_nil r)) hw
  · intro nsm req cu tpl dreq heq
    cases hres : resolveStart req cu tpl with
    | error p =>
      rw [checkComputedUserset_error_step nsm req cu tpl p hres] at heq
      simp at heq
    | ok s =>
      rw [checkComputedUserset_ok_step nsm req cu tpl s hres] at heq
      by_cases hgoal : onrEqual req.Goal ⟨s.Namespace, s.ObjectId, cu.Relation⟩ = true
      · rw [if_pos hgoal] at heq
        simp at heq
      · rw [if_neg hgoal] at heq
        cases hns : nsm s.Namespace cu.Relation with
        | none =>
          rw [hns] at heq
          simp only [Except.ok.injEq, ReduceableCheckFunc.dispatch.injEq] at heq
          subst heq
          rfl
        | some e =>
          rw [hns] at heq
          cases e <;> simp at heq
  · intro inner req h
    rw [dispatcherCheck, if_pos h]

/-- Closed witness for C1: the only dispatch enqueued at depth 5 carries depth
4, and the modelled dispatcher rejects a dispatch at depth zero. -/
theorem C1_depth_witness :
    (CheckRequest.mk ⟨"group", "g1", "member"⟩ ⟨"user", "alice", Ellipsis⟩ 0 4).DepthRemaining
      = (CheckRequest.mk ⟨"document", "doc1", "viewer"⟩
          ⟨"user", "alice", Ellipsis⟩ 0 5).DepthRemaining - 1
  ∧ dispatcherCheck (fun _ => ⟨true, none⟩) ⟨⟨"a", "b", "c"⟩, ⟨"d", "e", "f"⟩, 0, 0⟩
      = ⟨false, some GErr.depthLimitExceeded⟩ := by
  constructor
  · exact C1_depth.1 ⟨⟨"document", "doc1", "viewer"⟩, ⟨"user", "alice", Ellipsis⟩, 0, 5⟩
      (QueryResult.ok [⟨⟨"document", "doc1", "viewer"⟩, ⟨⟨"group", "g1", "member"⟩⟩⟩] none)
      [⟨⟨"group", "g1", "member"⟩, ⟨"user", "alice", Ellipsis⟩, 0, 4⟩] (by decide)
      ⟨⟨"group", "g1", "member"⟩, ⟨"user", "alice", Ellipsis⟩, 0, 4⟩ (by decide)
  · exact C1_depth.2.2 (fun _ => ⟨true, none⟩) ⟨⟨"a", "b", "c"⟩, ⟨"d", "e", "f"⟩, 0, 0⟩ rfl

/-- Claim C7: in checkComputedUserset, a resolved target ONR equal to Goal
yields {true, nil} with no dispatch; a relation reported missing by the
namespace manager yields {false, nil} and not an error; any other lookup
failure yields {false, error}; otherwise the target request with the depth
budget decremented is dispatched to the outer Dispatcher. -/
theorem C7_computed_userset :
    (∀ (nsm : Nsm) (req : CheckRequest) (cu : ComputedUserset) (tpl : Option RelationTuple)
        (s : ObjectAndRelation), resolveStart req cu tpl = Except.ok s →
        onrEqual req.Goal ⟨s.Namespace, s.ObjectId, cu.Relation⟩ = true →
        checkComputedUserset nsm req cu tpl = Except.ok ReduceableCheckFunc.AlwaysMember)
  ∧ (∀ (nsm : Nsm) (req : CheckRequest) (cu : ComputedUserset) (tpl : Option RelationTuple)
        (s : ObjectAndRelation), resolveStart req cu tpl = Except.ok s →
        onrEqual req.Goal ⟨s.Namespace, s.ObjectId, cu.Relation⟩ = false →
        nsm s.Namespace cu.Relation = some NsErr.ErrRelationNotFound →
        checkComputedUserset nsm req cu tpl = Except.ok ReduceableCheckFunc.NotMember
          ∧ sends ReduceableCheckFunc.NotMember = some ⟨false, none⟩)
  ∧ (∀ (nsm : Nsm) (req : CheckRequest) (cu : ComputedUserset) (tpl : Option RelationTuple)
        (s : ObjectAndRelation) (c : Nat), resolveStart req cu tpl = Except.ok s →
        onrEqual req.Goal ⟨s.Namespace, s.ObjectId, cu.Relation⟩ = false →
        nsm s.Namespace cu.Relation = some (NsErr.failure c) →
        checkComputedUserset nsm req cu tpl
          = Except.ok (ReduceableCheckFunc.CheckError (GErr.namespaceErr c))
          ∧ sends (ReduceableCheckFunc.CheckError (GErr.namespaceErr c))
            = some ⟨false, some (GErr.namespaceErr c)⟩)
  ∧ (∀ (nsm : Nsm) (req : CheckRequest) (cu : ComputedUserset) (tpl : Option RelationTuple)
        (s : ObjectAndRelation), resolveStart req cu tpl = Except.ok s →
        onrEqual req.Goal ⟨s.Namespace, s.ObjectId, cu.Relation⟩ = false →
        nsm s.Namespace cu.Relation = none →
        checkComputedUserset nsm req cu tpl = Except.ok (ReduceableCheckFunc.dispatch
          ⟨⟨s.Namespace, s.ObjectId, cu.Relation⟩, req.Goal, req.AtRevision,
            req.DepthRemaining - 1⟩)) := by
  refine ⟨?_, ?_, ?_, ?_⟩
  · intro nsm req cu tpl s hres hgoal
    rw [checkComputedUserset_ok_step nsm req cu tpl s hres, if_pos hgoal]
  · intro nsm req cu tpl s hres hgoal hns
    refine ⟨?_, rfl⟩
    rw [checkComputedUserset_ok_step nsm req cu tpl s hres,
      if_neg (by rw [hgoal]; exact Bool.false_ne_true), hns]
  · intro nsm req cu tpl s c hres hgoal hns
    refine ⟨?_, rfl⟩
    rw [checkComputedUserset_ok_step nsm req cu tpl s hres,
      if_neg (by rw [hgoal]; exact Bool.false_ne_true), hns]
  · intro nsm req cu tpl s hres hgoal hns
    rw [checkComputedUserset_ok_step nsm req cu tpl s hres,
      if_neg (by rw [hgoal]; exact Bool.false_ne_true), hns]

/-- Closed witness for C7: with an empty namespace manager the lookup
succeeds and a dispatch with decremented depth is produced; a missing relation
produces NotMember. -/
theorem C7_computed_userset_witness :
    checkComputedUserset (fun _ _ => none)
        ⟨⟨"document", "doc1", "view"⟩, ⟨"user", "alice", Ellipsis⟩, 0, 7⟩
        ⟨ComputedUserset_TUPLE_OBJECT, "viewer"⟩ none
      = Except.ok (ReduceableCheckFunc.dispatch
          ⟨⟨"document", "doc1", "viewer"⟩, ⟨"user", "alice", Ellipsis⟩, 0, 6⟩)
  ∧ checkComputedUserset (fun _ _ => some NsErr.ErrRelationNotFound)
        ⟨⟨"document", "doc1", "view"⟩, ⟨"user", "alice", Ellipsis⟩, 0, 7⟩
        ⟨ComputedUserset_TUPLE_OBJECT, "archiver"⟩ none
      = Except.ok ReduceableCheckFunc.NotMember := by
  constructor
  · exact C7_computed_userset.2.2.2 (fun _ _ => none)
      ⟨⟨"document", "doc1", "view"⟩, ⟨"user", "alice", Ellipsis⟩, 0, 7⟩
      ⟨ComputedUserset_TUPLE_OBJECT, "viewer"⟩ none ⟨"document", "doc1", "view"⟩
      rfl rfl rfl
  · exact (C7_computed_userset.2.1 (fun _ _ => some NsErr.ErrRelationNotFound)
      ⟨⟨"document", "doc1", "view"⟩, ⟨"user", "alice", Ellipsis⟩, 0, 7⟩
      ⟨ComputedUserset_TUPLE_OBJECT, "archiver"⟩ none ⟨"document", "doc1", "view"⟩
      rfl rfl rfl).1

/-- Claim C8: a request whose Start equals its Goal is answered
{true, nil} immediately — for every ONR, every depth d ≥ 0, every revision and
every relation schema. -/
theorem C8_reflexive (nsm : Nsm) (x : ObjectAndRelation) (d : Int) (r : Nat)
    (relation : Relation) (hd : 0 ≤ d) :
    check nsm ⟨x, x, r, d⟩ relation = Except.ok ReduceableCheckFunc.AlwaysMember
    ∧ sends ReduceableCheckFunc.AlwaysMember = some ⟨true, none⟩ := by
  refine ⟨?_, rfl⟩
  have h : onrEqual (⟨x, x, r, d⟩ : CheckRequest).Goal (⟨x, x, r, d⟩ : CheckRequest).Start
      = true := by
    simp [onrEqual]
  rw [check, if_pos h]

/-- Closed witness for C8 at a concrete ONR, depth and schema. -/
theorem C8_reflexive_witness :
    check (fun _ _ => none)
        ⟨⟨"user", "alice", Ellipsis⟩, ⟨"user", "alice", Ellipsis⟩, 3, 9⟩
        ⟨"viewer", none⟩
      = Except.ok ReduceableCheckFunc.AlwaysMember := by
  exact (C8_reflexive (fun _ _ => none) ⟨"user", "alice", Ellipsis⟩ 9 3 ⟨"viewer", none⟩
    (by decide)).1

/-- Claim C10: checkComputedUserset is total only under the selector
precondition: TUPLE_USERSET_OBJECT without a tuple hits the explicit panic; a
selector that is neither declared value leaves the local start nil, so
building the target ONR dereferences nil; and with TUPLE_OBJECT, or with
TUPLE_USERSET_OBJECT and a tuple present, no panic occurs. -/
theorem C10_panic_safety :
    (∀ (nsm : Nsm) (req : CheckRequest) (cu : ComputedUserset),
        cu.Object = ComputedUserset_TUPLE_USERSET_OBJECT →
        checkComputedUserset nsm req cu none
          = Except.error (GoPanic.explicitPanic "computed userset for tupleset without tuple"))
  ∧ (∀ (nsm : Nsm) (req : CheckRequest) (cu : ComputedUserset) (tpl : Option RelationTuple),
        cu.Object ≠ ComputedUserset_TUPLE_USERSET_OBJECT →
        cu.Object ≠ ComputedUserset_TUPLE_OBJECT →
        checkComputedUserset nsm req cu tpl = Except.error GoPanic.nilDereference)
  ∧ (∀ (nsm : Nsm) (req : CheckRequest) (cu : ComputedUserset) (tpl : Option RelationTuple),
        (cu.Object = ComputedUserset_TUPLE_OBJECT
          ∨ (cu.Object = ComputedUserset_TUPLE_USERSET_OBJECT ∧ tpl ≠ none)) →
        ∃ f, checkComputedUserset nsm req cu tpl = Except.ok f) := by
  refine ⟨?_, ?_, ?_⟩
  · intro nsm req cu h
    refine checkComputedUserset_error_step nsm req cu none _ ?_
    rw [resolveStart.eq_def, if_pos h]
  · intro nsm req cu tpl h1 h2
    refine checkComputedUserset_error_step nsm req cu tpl _ ?_
    rw [resolveStart.eq_def, if_neg h1, if_neg h2]
  · intro nsm req cu tpl h
    rcases h with h | ⟨h, ht⟩
    · have hne : cu.Object ≠ ComputedUserset_TUPLE_USERSET_OBJECT := by
        rw [h]; decide
      cases tpl with
      | none =>
        refine checkComputedUserset_ok_of_resolve nsm req cu none req.Start ?_
        rw [resolveStart.eq_def, if_neg hne, if_pos h]
      | some t =>
        refine checkComputedUserset_ok_of_resolve nsm req cu (some t) t.ObjectAndRelation ?_
        rw [resolveStart.eq_def, if_neg hne, if_pos h]
    · cases tpl with
      | none => exact absurd rfl ht
      | some t =>
        refine checkComputedUserset_ok_of_resolve nsm req cu (some t) t.User.GetUserset ?_
        rw [resolveStart.eq_def, if_pos h]

/-- Closed witness for C10: the explicit panic, the nil dereference for the
undeclared selector value 2, and a panic-free TUPLE_OBJECT call. -/
theorem C10_panic_safety_witness :
    checkComputedUserset (fun _ _ => none)
        ⟨⟨"document", "doc1", "view"⟩, ⟨"user", "alice", Ellipsis⟩, 0, 7⟩
        ⟨ComputedUserset_TUPLE_USERSET_OBJECT, "view"⟩ none
      = Except.error (GoPanic.explicitPanic "computed userset for tupleset without tuple")
  ∧ checkComputedUserset (fun _ _ => none)
        ⟨⟨"document", "doc1", "view"⟩, ⟨"user", "alice", Ellipsis⟩, 0, 7⟩
        ⟨2, "view"⟩ none
      = Except.error GoPanic.nilDereference
  ∧ (∃ f, checkComputedUserset (fun _ _ => none)
        ⟨⟨"document", "doc1", "view"⟩, ⟨"user", "alice", Ellipsis⟩, 0, 7⟩
        ⟨ComputedUserset_TUPLE_OBJECT, "viewer"⟩ none = Except.ok f) := by
  refine ⟨?_, ?_, ?_⟩
  · exact C10_panic_safety.1 (fun _ _ => none)
      ⟨⟨"document", "doc1", "view"⟩, ⟨"user", "alice", Ellipsis⟩, 0, 7⟩
      ⟨ComputedUserset_TUPLE_USERSET_OBJECT, "view"⟩ rfl
  · exact C10_panic_safety.2.1 (fun _ _ => none)
      ⟨⟨"document", "doc1", "view"⟩, ⟨"user", "alice", Ellipsis⟩, 0, 7⟩
      ⟨2, "view"⟩ none (by decide) (by decide)
  · exact C10_panic_safety.2.2 (fun _ _ => none)
      ⟨⟨"document", "doc1", "view"⟩, ⟨"user", "alice", Ellipsis⟩, 0, 7⟩
      ⟨ComputedUserset_TUPLE_OBJECT, "viewer"⟩ none (Or.inl rfl)

/-- Counterexample to claim C5 as stated: a set operation whose only child is
an unrecognized variant is translated into an empty request list — the child
is silently dropped by the switch of checkSetOperation, which has no default
case — and the resulting union reduces to {false, nil}, not to the fatal
{false, InvalidSchema} result. -/
theorem C5_counterexample :
    checkUsersetRewrite (fun _ _ => none)
        ⟨⟨"document", "doc1", "view"⟩, ⟨"user", "alice", Ellipsis⟩, 0, 7⟩
        (UsersetRewrite.Union [SetOperationChild.UnknownChild])
      = Except.ok (ReduceableCheckFunc.setOperationF ReducerKind.Any [])
  ∧ Any [] = ⟨false, none⟩
  ∧ Any [] ≠ alwaysFailResult := by
  refine ⟨?_, rfl, by decide⟩
  simp [checkUsersetRewrite, translateChildren, translateChild, Except.map]

/-- Claim C5 as amended: an unrecognized userset-rewrite operation is a fatal
{false, InvalidSchema} evaluator result (AlwaysFail), but an unrecognized
set-operation child is silently skipped by the child switch, contributing no
subcheck. -/
theorem C5_amended :
    (∀ (nsm : Nsm) (req : CheckRequest),
      checkUsersetRewrite nsm req UsersetRewrite.UnknownOp
        = Except.ok ReduceableCheckFunc.AlwaysFail)
  ∧ sends ReduceableCheckFunc.AlwaysFail = some ⟨false, some GErr.invalidSchema⟩
  ∧ (∀ (nsm : Nsm) (req : CheckRequest) (rest : List SetOperationChild),
      translateChildren nsm req (SetOperationChild.UnknownChild :: rest)
        = translateChildren nsm req rest) := by
  refine ⟨?_, rfl, ?_⟩
  · intro nsm req
    simp [checkUsersetRewrite]
  · intro nsm req rest
    rw [translateChildren]
    simp [translateChild]

end Graph
